import Mathlib

/-!
# HeapManagement: a model of `src/malloc.c`

The allocator keeps every block it ever created on one singly linked list
(`FreeList`), whose nodes are the `struct block` headers that sit in front of
the payloads inside the `sbrk` heap.

## Embedding

* Addresses are natural numbers, `NULL` is `0`.  `BLOCK_DATA` and
  `BLOCK_HEADER` add and subtract `H`.  The address of a split remainder,
  `(void *)next + sizeof(struct block) + size`, adds a `size_t` to a pointer
  and is reduced modulo `2 ^ 64`, as the pointer sum is on LP64.
* Header memory is a map from an address to the `struct block` stored there
  (`State.mem`).  A header that has been unlinked from the list keeps its
  contents, exactly as it does in C.  Two headers at the same address are one
  header, as in C.  A write to a header changes the header at that address and
  no other: this is what the C code does as long as the fields of distinct
  headers share no byte.  On LP64 the fields `size`, `next`, `free` take the
  first 17 of the 24 bytes of a header, so headers at least 17 bytes apart are
  independent; headers that lie closer to each other without coinciding are
  not covered by the model.  Payload bytes are not modelled.
* `size_t` is 64 bits wide (LP64) and every `size_t` operation is reduced
  modulo `2 ^ 64`; `int` is 32 bits wide and a `size_t` stored in an `int` keeps
  its low 32 bits in two's complement.  The statistics counters are `int`s and
  are modelled as integers; `++` and `--` are plain `+ 1` and `- 1`.
* `sizeof(struct block)` depends on the ABI (24 on LP64) and is the parameter
  `H` of every operation.  The fit policy `FIT` is a compile-time constant of
  the source and a parameter of the model.
* `assert` is active: a failing assertion ends the call with
  `Outcome.abort`.
* Loops run on fuel; a call whose loop needs more iterations than the fuel it
  was given ends with `Outcome.timeout`.
-/

namespace HeapManagement

/-! ## Machine arithmetic -/

/-- Number of values of a `size_t`. -/
def SIZE_MOD : Nat := 2 ^ 64

/-- The constant `INT_MAX` of `<limits.h>` for a 32-bit `int`. -/
def INT_MAX : Int := 2147483647

/-- The null pointer. -/
def NULL : Nat := 0

/-- The pointer `(void *)-1`, the failure result of `sbrk`. -/
def PTR_FAIL : Nat := 2 ^ 64 - 1

/-- Subtraction of two `size_t` values. -/
def subSize (a b : Nat) : Nat := (a + SIZE_MOD - b) % SIZE_MOD

/-- Addition of two `size_t` values. -/
def addSize (a b : Nat) : Nat := (a + b) % SIZE_MOD

/-- Conversion of a `size_t` value to `int`: the low 32 bits, read in two's
complement. -/
def toInt (x : Nat) : Int :=
  if x % 2 ^ 32 < 2 ^ 31 then ((x % 2 ^ 32 : Nat) : Int) else ((x % 2 ^ 32 : Nat) : Int) - 2 ^ 32

/-- The compound assignment `counter += size` of an `int` counter and a
`size_t` operand: the counter is converted to `size_t`, the sum is taken in
`size_t` and converted back to `int`. -/
def addToInt (counter : Int) (size : Nat) : Int :=
  toInt (addSize (counter % (SIZE_MOD : Int)).toNat size)

/-- The macro `ALIGN4(s) = (((((s) - 1) >> 2) << 2) + 4)` on a `size_t`. -/
def ALIGN4 (s : Nat) : Nat :=
  addSize (((subSize s 1 >>> 2) <<< 2) % SIZE_MOD) 4

/-! ## Data model -/

/-- The metadata structure `struct block`. -/
structure block where
  size : Nat
  next : Nat
  free : Bool
deriving DecidableEq

/-- Header memory: the `struct block` stored at each address. -/
abbrev Mem := Nat → block

/-- Write of a header: the header at `a` becomes `b`, every header at another
address keeps its fields. -/
def store (mem : Mem) (a : Nat) (b : block) : Mem :=
  fun x => if x = a then b else mem x

/-- The global variables of `malloc.c`, the header memory and the program
break.  `brk_limit` is the highest break the operating system grants. -/
structure State where
  mem : Mem
  FreeList : Nat
  brk : Nat
  brk_limit : Nat
  successful_malloc_count : Int
  successful_free_count : Int
  reuse_count : Int
  new_block_count : Int
  split_block_count : Int
  coalease_block_count : Int
  blocks_in_list : Int
  total_mem_requested : Int
  max_heap_size : Int
  call_atexit : Int

/-- The state of a process that has not called the allocator yet: an empty
list, all counters zero, the break at `brk0`. -/
def init (brk0 limit : Nat) : State where
  mem := fun _ => ⟨0, NULL, false⟩
  FreeList := NULL
  brk := brk0
  brk_limit := limit
  successful_malloc_count := 0
  successful_free_count := 0
  reuse_count := 0
  new_block_count := 0
  split_block_count := 0
  coalease_block_count := 0
  blocks_in_list := 0
  total_mem_requested := 0
  max_heap_size := 0
  call_atexit := 0

/-- How a call ends. -/
inductive Outcome (α : Type) where
  /-- The call returned `v`, leaving the state `s`. -/
  | ret (s : State) (v : α)
  /-- An assertion failed in state `s`. -/
  | abort (s : State)
  /-- The fuel ran out inside a loop. -/
  | timeout

/-- Whether the call ended in a failed assertion. -/
def Outcome.isAbort {α : Type} : Outcome α → Bool
  | .abort _ => true
  | _ => false

/-! ## The operating system -/

/-- Modelled from the spec: the OS growth primitive `sbrk`, which is not part
of the repository.  It is monotonic and never shrinks: an increment that is
negative as an `intptr_t` (at least `2 ^ 63` as a `size_t`) or that would move
the break past `brk_limit` fails with `(void *)-1`; otherwise the break
advances by the increment and the old break is returned. -/
def sbrk (s : State) (increment : Nat) : State × Nat :=
  if increment < 2 ^ 63 ∧ s.brk + increment ≤ s.brk_limit then
    ({ s with brk := s.brk + increment }, s.brk)
  else
    (s, PTR_FAIL)

/-! ## `find_free` -/

/-- The loop of `find_free` for `FIT == 0` (first fit), started at `curr` with
`*last == last`.  Returns the final `curr` and `*last`. -/
def find_free_first (mem : Mem) (size : Nat) : Nat → Nat → Nat → Option (Nat × Nat)
  | 0, _, _ => none
  | fuel + 1, curr, last =>
    if curr ≠ NULL ∧ ¬ ((mem curr).free = true ∧ (mem curr).size ≥ size) then
      find_free_first mem size fuel (mem curr).next curr
    else
      some (curr, last)

/-- The loop of `find_free` for `FIT == 1` (best fit).  Returns
`best_fit_block` and `*last` once `curr` is null. -/
def find_free_best (mem : Mem) (size : Nat) :
    Nat → Nat → Nat → Nat → Int → Option (Nat × Nat)
  | 0, _, _, _, _ => none
  | fuel + 1, curr, last, best_fit_block, best_fit_size =>
    if curr ≠ NULL then
      let diff_size : Int := toInt (subSize (mem curr).size size)
      if (mem curr).free = true ∧ diff_size ≥ 0 then
        if diff_size < best_fit_size then
          find_free_best mem size fuel (mem curr).next curr curr diff_size
        else
          find_free_best mem size fuel (mem curr).next curr best_fit_block best_fit_size
      else
        find_free_best mem size fuel (mem curr).next curr best_fit_block best_fit_size
    else
      some (best_fit_block, last)

/-- The loop of `find_free` for `FIT == 2` (worst fit).  Returns
`worst_fit_block` and `*last` once `curr` is null. -/
def find_free_worst (mem : Mem) (size : Nat) :
    Nat → Nat → Nat → Nat → Int → Option (Nat × Nat)
  | 0, _, _, _, _ => none
  | fuel + 1, curr, last, worst_fit_block, worst_fit_size =>
    if curr ≠ NULL then
      let diff_size : Int := toInt (subSize (mem curr).size size)
      if (mem curr).free = true ∧ diff_size ≥ 0 then
        if diff_size > worst_fit_size then
          find_free_worst mem size fuel (mem curr).next curr curr diff_size
        else
          find_free_worst mem size fuel (mem curr).next curr worst_fit_block worst_fit_size
      else
        find_free_worst mem size fuel (mem curr).next curr worst_fit_block worst_fit_size
    else
      some (worst_fit_block, last)

/-- The function `find_free(&last, size)`: the block found (or `NULL`) and the
final value of `*last`; `none` when the fuel runs out.  For a value of `FIT`
other than 0, 1, 2 no loop is compiled in and the head is returned. -/
def find_free (FIT : Nat) (s : State) (fuel : Nat) (last : Nat) (size : Nat) :
    Option (Nat × Nat) :=
  match FIT with
  | 0 => find_free_first s.mem size fuel s.FreeList last
  | 1 => find_free_best s.mem size fuel s.FreeList last NULL INT_MAX
  | 2 => find_free_worst s.mem size fuel s.FreeList last NULL 0
  | _ => some (s.FreeList, last)

/-! ## `grow_heap` -/

/-- The function `grow_heap(last, size)`. -/
def grow_heap (H : Nat) (s : State) (last size : Nat) : Outcome Nat :=
  let r0 := sbrk s 0
  let curr := r0.2
  let r1 := sbrk r0.1 (addSize H size)
  let prev := r1.2
  let s := r1.1
  if curr ≠ prev then .abort s
  else if curr = PTR_FAIL then .ret s NULL
  else
    let s := { s with new_block_count := s.new_block_count + 1 }
    let s := if s.FreeList = NULL then { s with FreeList := curr } else s
    let s := if last ≠ NULL then
        { s with mem := store s.mem last { s.mem last with next := curr } }
      else s
    let s := { s with blocks_in_list := s.blocks_in_list + 1,
                      max_heap_size := addToInt s.max_heap_size size }
    let s := { s with mem := store s.mem curr ⟨size, NULL, false⟩ }
    .ret s curr

/-! ## `malloc` -/

/-- The split step of `malloc`: `temp` is carved out of the tail of `next`.
The pointer sum `(void *)next + sizeof(struct block) + size` is taken modulo
`2 ^ 64`. -/
def split (H : Nat) (s : State) (next size : Nat) : State :=
  let temp := (next + H + size) % SIZE_MOD
  let mem := store s.mem temp
    ⟨subSize (subSize (s.mem next).size size) H, (s.mem next).next, true⟩
  let mem := store mem next { mem next with next := temp, size := size }
  { s with mem := mem,
           split_block_count := s.split_block_count + 1,
           blocks_in_list := s.blocks_in_list + 1 }

/-- The end of `malloc`: mark `next` in use and return its payload address. -/
def mark_used (H : Nat) (s : State) (next : Nat) : Outcome Nat :=
  .ret { s with mem := store s.mem next { s.mem next with free := false },
                successful_malloc_count := s.successful_malloc_count + 1 }
       (next + H)

/-- The function `malloc(size)`. -/
def malloc (FIT H fuel : Nat) (s : State) (size : Nat) : Outcome Nat :=
  let size := ALIGN4 size
  let s := { s with total_mem_requested := addToInt s.total_mem_requested size }
  if size = 0 then .ret s NULL
  else
    match find_free FIT s fuel s.FreeList size with
    | none => .timeout
    | some (next, last) =>
      let s := if next ≠ NULL ∧ subSize (s.mem next).size size > H then
          split H s next size
        else s
      if next = NULL then
        match grow_heap H s last size with
        | .ret s next => if next = NULL then .ret s NULL else mark_used H s next
        | .abort s => .abort s
        | .timeout => .timeout
      else
        mark_used H { s with reuse_count := s.reuse_count + 1 } next

/-! ## `coalesce_blocks` and `free` -/

/-- The merge step of `coalesce_blocks`: `curr` absorbs `curr->next`. -/
def merge (H : Nat) (s : State) (curr : Nat) : State :=
  let nxt := s.mem (s.mem curr).next
  { s with
    mem := store s.mem curr
      { s.mem curr with
        size := addSize (s.mem curr).size (addSize nxt.size H),
        next := nxt.next },
    coalease_block_count := s.coalease_block_count + 1,
    blocks_in_list := s.blocks_in_list - 1 }

/-- The loop of `coalesce_blocks`, started at `curr`. -/
def coalesce_loop (H : Nat) : Nat → State → Nat → Option State
  | 0, _, _ => none
  | fuel + 1, s, curr =>
    if curr ≠ NULL ∧ (s.mem curr).next ≠ NULL then
      let s :=
        if (s.mem curr).free = true ∧ (s.mem (s.mem curr).next).free = true then
          merge H s curr
        else s
      coalesce_loop H fuel s (s.mem curr).next
    else
      some s

/-- The function `coalesce_blocks()`. -/
def coalesce_blocks (H fuel : Nat) (s : State) : Option State :=
  coalesce_loop H fuel s s.FreeList

/-- The first statement of `free`: `report_stats` is registered with `atexit`
on each of the first ten calls. -/
def register_atexit (s : State) : State :=
  if s.call_atexit < 10 then { s with call_atexit := s.call_atexit + 1 } else s

/-- The function `free(ptr)`.  Registering `report_stats` with `atexit` has no
effect on the allocator beyond the counter `call_atexit`. -/
def free (H fuel : Nat) (s : State) (ptr : Nat) : Outcome Unit :=
  let s := register_atexit s
  if ptr = NULL then .ret s ()
  else
    let curr := ptr - H
    if (s.mem curr).free ≠ false then .abort s
    else
      let s := { s with mem := store s.mem curr { s.mem curr with free := true } }
      match coalesce_blocks H fuel s with
      | none => .timeout
      | some s => .ret { s with successful_free_count := s.successful_free_count + 1 } ()

/-! ## `calloc` -/

/-- The function `calloc(nitems, size)`.  The product is taken in `size_t`.
The `memset` of the payload leaves the allocator state alone (payload bytes
are not part of the state), so a successful call ends as its `malloc` does. -/
def calloc (FIT H fuel : Nat) (s : State) (nitems size : Nat) : Outcome Nat :=
  if nitems = 0 ∨ size = 0 then .ret s NULL
  else malloc FIT H fuel s ((nitems * size) % SIZE_MOD)

/-! ## Client programs -/

/-- One call of a client program.  `free k` releases the pointer returned by
the `k`-th `malloc` of the program (counted from 0). -/
inductive Call where
  | malloc (n : Nat)
  | free (k : Nat)

/-- A running client: the allocator state and the pointers `malloc` has
returned so far, in call order. -/
structure Run where
  st : State
  ptrs : List Nat

/-- Run a client program; `none` when a call aborts or runs out of fuel. -/
def exec (FIT H fuel : Nat) : Run → List Call → Option Run
  | r, [] => some r
  | r, Call.malloc n :: cs =>
    match malloc FIT H fuel r.st n with
    | .ret s p => exec FIT H fuel ⟨s, r.ptrs ++ [p]⟩ cs
    | _ => none
  | r, Call.free k :: cs =>
    match free H fuel r.st (r.ptrs.getD k NULL) with
    | .ret s _ => exec FIT H fuel ⟨s, r.ptrs⟩ cs
    | _ => none

/-- The start of every client program: the empty heap. -/
def start (brk0 limit : Nat) : Run := ⟨init brk0 limit, []⟩

/-- The state a client program ends in (the empty heap when it does not run
to its end). -/
def stateAfter (FIT H fuel brk0 limit : Nat) (cs : List Call) : State :=
  match exec FIT H fuel (start brk0 limit) cs with
  | some r => r.st
  | none => init brk0 limit

/-- The `next` links starting at `p` visit exactly the addresses `l`, in this
order, and then reach `NULL`. -/
def Chain (mem : Mem) : Nat → List Nat → Prop
  | p, [] => p = NULL
  | p, a :: l => p = a ∧ a ≠ NULL ∧ Chain mem (mem a).next l

/-- Decision procedure for `Chain`. -/
instance Chain.dec (mem : Mem) : (p : Nat) → (l : List Nat) → Decidable (Chain mem p l)
  | p, [] => inferInstanceAs (Decidable (p = NULL))
  | p, a :: l =>
    have := Chain.dec mem (mem a).next l
    inferInstanceAs (Decidable (p = a ∧ a ≠ NULL ∧ Chain mem (mem a).next l))

/-- The byte ranges `[a1, a1 + n1)` and `[a2, a2 + n2)` have a byte in
common. -/
def overlaps (a1 n1 a2 n2 : Nat) : Prop :=
  a1 < a2 + n2 ∧ a2 < a1 + n1 ∧ 0 < n1 ∧ 0 < n2

instance (a1 n1 a2 n2 : Nat) : Decidable (overlaps a1 n1 a2 n2) := by
  unfold overlaps; infer_instance

/-- No two list-adjacent blocks of the list `l` are both free. -/
def NoAdjFree (mem : Mem) : List Nat → Prop
  | a :: b :: l => ¬ ((mem a).free = true ∧ (mem b).free = true) ∧ NoAdjFree mem (b :: l)
  | _ => True

/-- Decision procedure for `NoAdjFree`. -/
instance NoAdjFree.dec (mem : Mem) : (l : List Nat) → Decidable (NoAdjFree mem l)
  | [] => isTrue trivial
  | [_] => isTrue trivial
  | a :: b :: l =>
    have := NoAdjFree.dec mem (b :: l)
    inferInstanceAs
      (Decidable (¬ ((mem a).free = true ∧ (mem b).free = true) ∧ NoAdjFree mem (b :: l)))

/-- The test of the first-fit loop: the block at `a` is free and holds `size`
bytes. -/
def fits (mem : Mem) (size a : Nat) : Prop :=
  (mem a).free = true ∧ (mem a).size ≥ size

instance (mem : Mem) (size a : Nat) : Decidable (fits mem size a) := by
  unfold fits; infer_instance

/-- The macro `ALIGN4` on a `size_t` that is `w` bits wide; `ALIGN4` is the
case `w = 64`. -/
def ALIGN4_bits (w s : Nat) : Nat :=
  (((((s + 2 ^ w - 1) % 2 ^ w) >>> 2) <<< 2) % 2 ^ w + 4) % 2 ^ w

/-- The last address of the list `l`, or `d` when `l` is empty. -/
def lastOr : List Nat → Nat → Nat
  | [], d => d
  | a :: l, _ => lastOr l a

/-- The bytes the blocks of the list `l` account for: the sum of
`size + H` over its headers. -/
def listBytes (H : Nat) (mem : Mem) (l : List Nat) : Nat :=
  (l.map fun a => (mem a).size + H).sum

/-! ## Header memory -/

/-- C1 (the code departs from it): with `H = 24`, three blocks are grown at
4096, 4124 and 4152; the first and the third are released, then the middle
one.  Before the last `free` the outer blocks are free and the middle one is
in use; when it returns the head block has absorbed the middle block only
(size 32) and its successor 4152 is still free: two list-adjacent blocks are
both free. -/
theorem coalesce_blocks_skips_second_neighbour :
    ∀ FIT : Fin 3,
      (exec FIT.val 24 8 (start 4096 8192)
        [.malloc 4, .malloc 4, .malloc 4, .free 0, .free 2]).map
        (fun r => (r.ptrs, r.st.FreeList, r.st.mem 4096, r.st.mem 4124, r.st.mem 4152)) =
      some ([4120, 4148, 4176], 4096, ⟨4, 4124, true⟩, ⟨4, 4152, false⟩, ⟨4, NULL, true⟩) ∧
      (exec FIT.val 24 8 (start 4096 8192)
        [.malloc 4, .malloc 4, .malloc 4, .free 0, .free 2, .free 1]).map
        (fun r => (r.st.FreeList, r.st.mem 4096, r.st.mem 4152, r.st.coalease_block_count)) =
      some (4096, ⟨32, 4152, true⟩, ⟨4, NULL, true⟩, 1) := by
  intro FIT
  fin_cases FIT <;> exact ⟨by decide, by decide⟩

/-- C2 (the code departs from it): under worst fit (`FIT = 2`, `H = 24`) a
block of size 4 is grown and released; the list then holds one free block of
size 4 = `ALIGN4 4`.  The next `malloc(4)` does not reuse it: it grows the
heap (`new_block_count` goes from 1 to 2, `reuse_count` stays 0) and returns
the payload of the new block at 4124. -/
theorem worst_fit_grows_despite_exact_fit :
    (exec 2 24 8 (start 4096 8192) [.malloc 4, .free 0]).map
      (fun r => (r.ptrs, r.st.FreeList, r.st.mem 4096, ALIGN4 4, r.st.new_block_count)) =
      some ([4120], 4096, ⟨4, NULL, true⟩, 4, 1) ∧
    (exec 2 24 8 (start 4096 8192) [.malloc 4, .free 0, .malloc 4]).map
      (fun r => (r.ptrs, r.st.new_block_count, r.st.reuse_count, r.st.mem 4096,
        r.st.mem 4124)) =
      some ([4120, 4148], 2, 0, ⟨4, 4124, true⟩, ⟨4, NULL, false⟩) :=
  ⟨by decide, by decide⟩

/-- C3 (the code departs from it): for every policy, with `H = 24`,
`malloc(2 ^ 64 - 4)` on the empty heap asks `sbrk` for
`(24 + 2 ^ 64 - 4) mod 2 ^ 64 = 20` bytes and returns a block at 4096 of
recorded size `2 ^ 64 - 4`; the next `malloc(4)` puts its block at 4116.  Both
blocks are in use, the payload of the first (from 4120) overlaps the header of
its list successor (from 4116, 24 bytes) and the payload of that successor
(from 4140, 4 bytes). -/
theorem overflowing_request_overlaps_successor :
    ∀ FIT : Fin 3,
      addSize 24 (ALIGN4 (2 ^ 64 - 4)) = 20 ∧
      (exec FIT.val 24 8 (start 4096 8192) [.malloc (2 ^ 64 - 4), .malloc 4]).map
        (fun r => (r.ptrs, r.st.FreeList, r.st.brk, r.st.mem 4096, r.st.mem 4116)) =
      some ([4120, 4140], 4096, 4144, ⟨2 ^ 64 - 4, 4116, false⟩, ⟨4, NULL, false⟩) ∧
      (exec FIT.val 24 8 (start 4096 8192) [.malloc (2 ^ 64 - 4), .malloc 4]).map
        (fun r =>
          (decide (overlaps (4096 + 24) (r.st.mem 4096).size 4116 24),
           decide (overlaps (4096 + 24) (r.st.mem 4096).size
             (4116 + 24) (r.st.mem 4116).size))) =
      some (true, true) := by
  intro FIT
  fin_cases FIT <;> exact ⟨by decide, by decide, by decide⟩

/-- C4 (the code departs from it): for every policy, with `H = 24` and a
break limit of 4124, the first `malloc(4)` uses the heap up.  In the next
`malloc(4)` no block fits and `sbrk(28)` fails with `(void *)-1`, while
`sbrk(0)` returned the break 4124: `assert(curr == prev)` fails, so
`grow_heap` and `malloc` end in the failed assertion instead of returning
`NULL`. -/
theorem grow_heap_aborts_when_sbrk_fails :
    ∀ FIT : Fin 3,
      (exec FIT.val 24 4 (start 4096 4124) [.malloc 4]).map
        (fun r => (r.ptrs, r.st.brk, find_free FIT.val r.st 4 r.st.FreeList 4,
          (sbrk r.st 0).2, (sbrk r.st 28).2 == PTR_FAIL)) =
      some ([4120], 4124, some (NULL, 4096), 4124, true) ∧
      (exec FIT.val 24 4 (start 4096 4124) [.malloc 4]).map
        (fun r => ((grow_heap 24 r.st 4096 4).isAbort, (malloc FIT.val 24 4 r.st 4).isAbort)) =
      some (true, true) := by
  intro FIT
  fin_cases FIT <;> exact ⟨by decide, by decide⟩

/-- C5 (the code departs from it): under best fit and worst fit (the
policies `FIT = k + 1` for `k = 0, 1`; `H = 24`) a block of size 4 is grown and released, then `malloc(2 ^ 64 - 4)` is called.
The slack `4 - (2 ^ 64 - 4)` wraps to 8 in `size_t` and is 8 as an `int`, so
the locator accepts the block: the call succeeds and returns the same payload
4120, whose block has size 4, less than the 2 ^ 64 - 4 bytes asked for. -/
theorem best_worst_fit_return_too_small_block :
    ∀ k : Fin 2,
      toInt (subSize 4 (ALIGN4 (2 ^ 64 - 4))) = 8 ∧
      (exec (k.val + 1) 24 8 (start 4096 8192) [.malloc 4, .free 0, .malloc (2 ^ 64 - 4)]).map
        (fun r => (r.ptrs, r.st.FreeList, r.st.mem 4096, r.st.new_block_count,
          r.st.successful_malloc_count)) =
      some ([4120, 4120], 4096, ⟨4, NULL, false⟩, 1, 2) ∧
      (exec (k.val + 1) 24 8 (start 4096 8192) [.malloc 4, .free 0, .malloc (2 ^ 64 - 4)]).map
        (fun r => decide ((r.st.mem (4120 - 24)).size ≥ 2 ^ 64 - 4)) =
      some false := by
  intro k
  fin_cases k <;> exact ⟨by decide, by decide, by decide⟩

/-- C8 (the code departs from it): under best fit and worst fit (the
policies `FIT = k + 1` for `k = 0, 1`; `H = 24`) a block of size 8 is grown and released, then `malloc(2 ^ 64 - 7)` is called,
which rounds to `2 ^ 64 - 4`.  The call succeeds and returns the block of
size 8: the size of the returned block minus the rounded request is negative,
not between 0 and `H`. -/
theorem best_worst_fit_negative_slack :
    ∀ k : Fin 2,
      ALIGN4 (2 ^ 64 - 7) = 2 ^ 64 - 4 ∧
      (exec (k.val + 1) 24 8 (start 4096 8192) [.malloc 8, .free 0, .malloc (2 ^ 64 - 7)]).map
        (fun r => (r.ptrs, r.st.mem 4096, r.st.reuse_count,
          ((r.st.mem (4120 - 24)).size : Int) - (ALIGN4 (2 ^ 64 - 7) : Int))) =
      some ([4120, 4120], ⟨8, NULL, false⟩, 1, 12 - 2 ^ 64) := by
  intro k
  fin_cases k <;> exact ⟨by decide, by decide⟩

/-- C9 (the code departs from it): under first fit (`H = 24`) a block of
size 4 is grown and released, then `p = malloc(2 ^ 64 - 4)` succeeds by
growing a block at 4124.  `free(p)` merges it into the head block, whose size
wraps to `(4 + (2 ^ 64 - 4) + 24) mod 2 ^ 64 = 24`, and the immediately
following `malloc(2 ^ 64 - 4)` finds no fit and grows the heap again:
`new_block_count` goes from 2 to 3 and `reuse_count` stays 0.  Under best fit
the same happens without any wrap-around once a merged block is 2 GiB larger
than the request, because its slack is negative as an `int`:
`new_block_count` goes from 3 to 4. -/
theorem round_trip_grows_again :
    (exec 0 24 8 (start 4096 8192)
        [.malloc 4, .free 0, .malloc (2 ^ 64 - 4), .free 1]).map
      (fun r => (r.ptrs, r.st.FreeList, r.st.mem 4096, r.st.new_block_count,
        r.st.reuse_count)) =
      some ([4120, 4148], 4096, ⟨24, NULL, true⟩, 2, 0) ∧
    (exec 0 24 8 (start 4096 8192)
        [.malloc 4, .free 0, .malloc (2 ^ 64 - 4), .free 1, .malloc (2 ^ 64 - 4)]).map
      (fun r => (r.ptrs, r.st.mem 4096, r.st.mem 4144, r.st.new_block_count,
        r.st.reuse_count)) =
      some ([4120, 4148, 4168], ⟨24, 4144, true⟩, ⟨2 ^ 64 - 4, NULL, false⟩, 3, 0) ∧
    (exec 1 24 8 (start 4096 (2 ^ 33))
        [.malloc 4, .malloc (2 ^ 31 + 8), .free 1, .malloc 4, .free 2]).map
      (fun r => (r.ptrs, r.st.mem 4096, r.st.mem 4124, r.st.new_block_count,
        r.st.reuse_count)) =
      some ([4120, 4148, 2147487828], ⟨4, 4124, false⟩, ⟨2147483684, NULL, true⟩, 3, 0) ∧
    (exec 1 24 8 (start 4096 (2 ^ 33))
        [.malloc 4, .malloc (2 ^ 31 + 8), .free 1, .malloc 4, .free 2, .malloc 4]).map
      (fun r => (r.ptrs, r.st.mem 4124, r.st.new_block_count, r.st.reuse_count)) =
      some ([4120, 4148, 2147487828, 2147487856], ⟨2147483684, 2147487832, true⟩, 4, 0) :=
  ⟨by decide, by decide, by decide, by decide⟩

/-- C10 (the code departs from it): under worst fit (`H = 24`), after a
block of size 4 has been grown and released, the list holds one free block of
size 4, and `find_free` for a request of 4 returns `NULL` although that block
is free and large enough: its slack 0 is not greater than the initial
`worst_fit_size = 0`.  For a request of 0 < 4 the same block is found. -/
theorem worst_fit_rejects_exact_fit :
    (exec 2 24 8 (start 4096 8192) [.malloc 4, .free 0]).map
      (fun r => (r.st.FreeList, r.st.mem 4096,
        find_free 2 r.st 8 r.st.FreeList 4, find_free 2 r.st 8 r.st.FreeList 0)) =
      some (4096, ⟨4, NULL, true⟩, some (NULL, 4096), some (4096, 4096)) := by
  decide

/-! ## Rounding -/

theorem ALIGN4_eq_bits (n : Nat) : ALIGN4 n = ALIGN4_bits 64 n := by
  unfold ALIGN4 ALIGN4_bits addSize subSize SIZE_MOD
  rfl

/-- The value of the macro for a modulus `m = 4 * k`. -/
theorem ALIGN4_bits_value (w n : Nat) (hw : 2 ≤ w) (hn : n < 2 ^ w) :
    ALIGN4_bits w n = (4 * ((n + 3) / 4)) % 2 ^ w := by
  obtain ⟨k, hk⟩ : ∃ k, 2 ^ w = 4 * k := by
    refine ⟨2 ^ (w - 2), ?_⟩
    rw [show w = 2 + (w - 2) by omega, pow_add]
    simp
  have hm : 0 < 2 ^ w := Nat.two_pow_pos w
  unfold ALIGN4_bits
  generalize 2 ^ w = m at *
  simp only [Nat.shiftRight_eq_div_pow, Nat.shiftLeft_eq]
  norm_num
  rcases Nat.eq_zero_or_pos n with h0 | hpos
  · subst h0
    have e1 : (0 + m - 1) % m = m - 1 := by
      rw [Nat.zero_add]; exact Nat.mod_eq_of_lt (by omega)
    rw [e1, show (m - 1) / 4 * 4 + 4 = m by omega, Nat.mod_self]
    simp
  · have e1 : (n + m - 1) % m = n - 1 := by
      rw [show n + m - 1 = (n - 1) + m by omega, Nat.add_mod_right]
      exact Nat.mod_eq_of_lt (by omega)
    rw [e1, show (n - 1) / 4 * 4 + 4 = 4 * ((n + 3) / 4) by omega]

/-- C15: on a `size_t` of `w` bits (`w ≥ 2`) and for every value `n` of that
type, `ALIGN4(n)` is `4 * ceil(n / 4)` reduced modulo `2 ^ w`; hence for
`1 ≤ n ≤ 2 ^ w - 4` it is the least multiple of 4 that is at least `n` (and
`n` itself when `n` is a multiple of 4), `ALIGN4(0) = 0`, and for
`n > 2 ^ w - 4` it wraps to 0.  The macro `ALIGN4` of the model is the case
`w = 64`. -/
theorem ALIGN4_rounding (w n : Nat) (hw : 2 ≤ w) (hn : n < 2 ^ w) :
    ALIGN4_bits w n = (4 * ((n + 3) / 4)) % 2 ^ w ∧
    (1 ≤ n → n ≤ 2 ^ w - 4 →
      ALIGN4_bits w n % 4 = 0 ∧ n ≤ ALIGN4_bits w n ∧
      (∀ k, k % 4 = 0 → n ≤ k → ALIGN4_bits w n ≤ k) ∧
      (n % 4 = 0 → ALIGN4_bits w n = n)) ∧
    ALIGN4_bits w 0 = 0 ∧
    (2 ^ w - 4 < n → ALIGN4_bits w n = 0) ∧
    ALIGN4 n = ALIGN4_bits 64 n := by
  obtain ⟨k, hk⟩ : ∃ k, 2 ^ w = 4 * k := by
    refine ⟨2 ^ (w - 2), ?_⟩
    rw [show w = 2 + (w - 2) by omega, pow_add]
    simp
  have hm : 0 < 2 ^ w := Nat.two_pow_pos w
  have hv := ALIGN4_bits_value w n hw hn
  have hv0 := ALIGN4_bits_value w 0 hw hm
  refine ⟨hv, ?_, ?_, ?_, ALIGN4_eq_bits n⟩
  · intro h1 h2
    have hlt : 4 * ((n + 3) / 4) < 2 ^ w := by omega
    rw [hv, Nat.mod_eq_of_lt hlt]
    refine ⟨by omega, by omega, ?_, by omega⟩
    intro j hj hnj
    omega
  · rw [hv0]; simp
  · intro hbig
    rw [hv, show 4 * ((n + 3) / 4) = 2 ^ w by omega, Nat.mod_self]

/-- Witness for C15 on a 64-bit `size_t`: 10 rounds to 12, 12 to itself. -/
theorem ALIGN4_rounding_witness :
    2 ≤ 64 ∧ 10 < 2 ^ 64 ∧ ALIGN4_bits 64 10 = 12 ∧ ALIGN4 10 = 12 ∧
    ALIGN4 12 = 12 ∧ ALIGN4 (2 ^ 64 - 3) = 0 := by
  have h := ALIGN4_rounding 64 10 (by decide) (by decide)
  refine ⟨by decide, by decide, ?_, ?_, by decide, by decide⟩
  · rw [h.1]; decide
  · rw [h.2.2.2.2, h.1]; decide

/-! ## Counters -/

/-- Adding 0 to an `int` counter leaves it as it is. -/
theorem addToInt_zero (c : Int) (h1 : -2 ^ 31 ≤ c) (h2 : c < 2 ^ 31) : addToInt c 0 = c := by
  unfold addToInt addSize toInt SIZE_MOD
  simp only [Nat.add_zero]
  push_cast
  split <;> omega

/-! ## `grow_heap` -/

/-- With a valid break, `sbrk(0)` returns the break and changes nothing. -/
theorem sbrk_zero (s : State) (h : s.brk ≤ s.brk_limit) : sbrk s 0 = (s, s.brk) := by
  unfold sbrk
  simp [h]

/-- With a valid break `grow_heap` returns the old break or aborts. -/
theorem grow_heap_ret (H : Nat) (s t : State) (last size v : Nat)
    (hF : s.brk ≠ PTR_FAIL) (hle : s.brk ≤ s.brk_limit)
    (h : grow_heap H s last size = .ret t v) : v = s.brk := by
  unfold grow_heap at h
  rw [sbrk_zero s hle] at h
  simp only at h
  by_cases hc : s.brk ≠ (sbrk s (addSize H size)).2
  · rw [if_pos hc] at h; cases h
  · rw [if_neg hc, if_neg hF] at h
    exact ((Outcome.ret.inj h).2).symm

/-- What a successful `grow_heap` leaves behind. -/
theorem grow_heap_success (H : Nat) (s : State) (last size : Nat)
    (hF : s.brk ≠ PTR_FAIL)
    (hos : addSize H size < 2 ^ 63 ∧ s.brk + addSize H size ≤ s.brk_limit) :
    ∃ t, grow_heap H s last size = .ret t s.brk ∧
      t.mem = store (if last ≠ NULL then store s.mem last { s.mem last with next := s.brk }
        else s.mem) s.brk ⟨size, NULL, false⟩ ∧
      t.FreeList = (if s.FreeList = NULL then s.brk else s.FreeList) ∧
      t.new_block_count = s.new_block_count + 1 ∧
      t.blocks_in_list = s.blocks_in_list + 1 ∧
      t.split_block_count = s.split_block_count ∧
      t.coalease_block_count = s.coalease_block_count ∧
      t.brk = s.brk + addSize H size := by
  have hle : s.brk ≤ s.brk_limit := by omega
  have h1 : sbrk s (addSize H size) =
      ({ s with brk := s.brk + addSize H size }, s.brk) := by
    unfold sbrk; rw [if_pos hos]
  unfold grow_heap
  rw [sbrk_zero s hle]
  simp only [h1, ne_eq, not_true_eq_false, if_false, hF]
  by_cases hfl : s.FreeList = NULL <;> by_cases hl : last = NULL <;>
    simp only [hfl, hl, if_true, if_false, ne_eq, not_true_eq_false, not_false_eq_true] <;>
    exact ⟨_, rfl, rfl, rfl, rfl, rfl, rfl, rfl, rfl⟩

/-! ## Calls that return `NULL` -/

/-- A request that rounds to 0 is answered with `NULL` and leaves the state as
it is. -/
theorem malloc_zero (FIT H fuel : Nat) (s : State) (n : Nat)
    (h1 : -2 ^ 31 ≤ s.total_mem_requested) (h2 : s.total_mem_requested < 2 ^ 31)
    (hz : ALIGN4 n = 0) : malloc FIT H fuel s n = .ret s NULL := by
  simp only [malloc, hz, if_true]
  rw [addToInt_zero _ h1 h2]

/-- With a valid break `malloc` returns `NULL` for zero-size requests only. -/
theorem malloc_null (FIT H fuel : Nat) (s t : State) (n : Nat)
    (h0 : s.brk ≠ NULL) (hF : s.brk ≠ PTR_FAIL) (hle : s.brk ≤ s.brk_limit)
    (h : malloc FIT H fuel s n = .ret t NULL) : ALIGN4 n = 0 := by
  by_contra hr
  simp only [malloc, hr, if_false] at h
  split at h
  · cases h
  · rename_i next last hfind
    by_cases hn : next = NULL
    · subst hn
      simp only [ne_eq, not_true_eq_false, false_and, if_false, if_true] at h
      split at h
      · rename_i t2 v hg
        have hv := grow_heap_ret H _ t2 last (ALIGN4 n) v (by exact hF) (by exact hle) hg
        simp only at hv
        rw [hv] at h
        simp only [h0, if_false, mark_used] at h
        have := (Outcome.ret.inj h).2
        unfold NULL at h0 this; omega
      · cases h
      · cases h
    · simp only [hn, if_false, mark_used] at h
      have := (Outcome.ret.inj h).2
      unfold NULL at hn this; omega

/-- C14: when `ALIGN4(n)` is 0, in particular for `n = 0`, `malloc(n)` returns
`NULL` and the state after the call is the state before it: memory, list
head, break and every statistics counter, `total_mem_requested` included (to
which 0 is added).  The counter holds an `int` value. -/
theorem malloc_zero_size (FIT H fuel : Nat) (s : State) (n : Nat)
    (h1 : -2 ^ 31 ≤ s.total_mem_requested) (h2 : s.total_mem_requested < 2 ^ 31) :
    (ALIGN4 n = 0 → malloc FIT H fuel s n = .ret s NULL) ∧
    ALIGN4 0 = 0 ∧ malloc FIT H fuel s 0 = .ret s NULL :=
  ⟨malloc_zero FIT H fuel s n h1 h2, by decide,
    malloc_zero FIT H fuel s 0 h1 h2 (by decide)⟩

/-- Witness for C14 on the heap left by `malloc(4); malloc(8)` under first
fit with `H = 24`: `malloc(0)` and `malloc(2 ^ 64 - 1)` return `NULL` and
leave that state. -/
theorem malloc_zero_size_witness :
    (-2 ^ 31 ≤ (stateAfter 0 24 4 4096 8192 [.malloc 4, .malloc 8]).total_mem_requested ∧
      (stateAfter 0 24 4 4096 8192 [.malloc 4, .malloc 8]).total_mem_requested < 2 ^ 31) ∧
    ALIGN4 (2 ^ 64 - 1) = 0 ∧
    malloc 0 24 4 (stateAfter 0 24 4 4096 8192 [.malloc 4, .malloc 8]) (2 ^ 64 - 1) =
      .ret (stateAfter 0 24 4 4096 8192 [.malloc 4, .malloc 8]) NULL ∧
    malloc 0 24 4 (stateAfter 0 24 4 4096 8192 [.malloc 4, .malloc 8]) 0 =
      .ret (stateAfter 0 24 4 4096 8192 [.malloc 4, .malloc 8]) NULL := by
  have h := malloc_zero_size 0 24 4 (stateAfter 0 24 4 4096 8192 [.malloc 4, .malloc 8])
    (2 ^ 64 - 1) (by decide) (by decide)
  exact ⟨⟨by decide, by decide⟩, by decide, h.1 (by decide), h.2.2⟩

/-- C17: `calloc(nitems, size)` returns `NULL` when `nitems` or `size` is 0,
and whenever a `calloc` call returns `NULL` the state after the call is the
state before it: memory, list head and every statistics counter,
`total_mem_requested` included.  The break is a valid address (neither null
nor `(void *)-1`, within the limit) and the counter holds an `int` value. -/
theorem calloc_null_keeps_state (FIT H fuel : Nat) (s : State) (nitems size : Nat)
    (h1 : -2 ^ 31 ≤ s.total_mem_requested) (h2 : s.total_mem_requested < 2 ^ 31)
    (h0 : s.brk ≠ NULL) (hF : s.brk ≠ PTR_FAIL) (hle : s.brk ≤ s.brk_limit) :
    (nitems = 0 ∨ size = 0 → calloc FIT H fuel s nitems size = .ret s NULL) ∧
    (∀ t, calloc FIT H fuel s nitems size = .ret t NULL → t = s) := by
  constructor
  · intro hz
    simp [calloc, hz]
  · intro t h
    unfold calloc at h
    split at h
    · cases h; rfl
    · have hz := malloc_null FIT H fuel s t _ h0 hF hle h
      rw [malloc_zero FIT H fuel s _ h1 h2 hz] at h
      cases h; rfl

/-- Witness for C17 on the heap left by `malloc(4); malloc(8)` under first
fit with `H = 24`: `calloc(0, 8)` returns `NULL`, and so does
`calloc(2 ^ 32, 2 ^ 32)`, whose product wraps to 0; both leave the state as it
is. -/
theorem calloc_null_keeps_state_witness :
    ((stateAfter 0 24 4 4096 8192 [.malloc 4, .malloc 8]).brk ≠ NULL ∧
      (stateAfter 0 24 4 4096 8192 [.malloc 4, .malloc 8]).brk ≠ PTR_FAIL ∧
      (stateAfter 0 24 4 4096 8192 [.malloc 4, .malloc 8]).brk ≤
        (stateAfter 0 24 4 4096 8192 [.malloc 4, .malloc 8]).brk_limit) ∧
    calloc 0 24 4 (stateAfter 0 24 4 4096 8192 [.malloc 4, .malloc 8]) 0 8 =
      .ret (stateAfter 0 24 4 4096 8192 [.malloc 4, .malloc 8]) NULL ∧
    calloc 0 24 4 (stateAfter 0 24 4 4096 8192 [.malloc 4, .malloc 8]) (2 ^ 32) (2 ^ 32) =
      .ret (stateAfter 0 24 4 4096 8192 [.malloc 4, .malloc 8]) NULL := by
  have h := fun a b => calloc_null_keeps_state 0 24 4
    (stateAfter 0 24 4 4096 8192 [.malloc 4, .malloc 8]) a b
    (by decide) (by decide) (by decide) (by decide) (by decide)
  refine ⟨⟨by decide, by decide, by decide⟩, (h 0 8).1 (Or.inl rfl), ?_⟩
  have hz : ALIGN4 ((2 ^ 32 * 2 ^ 32) % SIZE_MOD) = 0 := by decide
  have hc : calloc 0 24 4 (stateAfter 0 24 4 4096 8192 [.malloc 4, .malloc 8])
      (2 ^ 32) (2 ^ 32) =
      malloc 0 24 4 (stateAfter 0 24 4 4096 8192 [.malloc 4, .malloc 8])
        ((2 ^ 32 * 2 ^ 32) % SIZE_MOD) := by
    unfold calloc
    rw [if_neg (by decide)]
  rw [hc]
  exact malloc_zero 0 24 4 _ _ (by decide) (by decide) hz

/-! ## The first-fit locator -/

/-- The first-fit loop on a finite chain. -/
theorem find_free_first_spec (mem : Mem) (size : Nat) :
    ∀ (l : List Nat) (fuel curr last0 : Nat), Chain mem curr l → l.length + 1 ≤ fuel →
      ∃ b last, find_free_first mem size fuel curr last0 = some (b, last) ∧
        ((b = NULL ∧ (∀ a ∈ l, ¬ fits mem size a) ∧ last = lastOr l last0) ∨
         (∃ pre post, l = pre ++ b :: post ∧ fits mem size b ∧
            (∀ a ∈ pre, ¬ fits mem size a) ∧ last = lastOr pre last0)) := by
  intro l
  induction l with
  | nil =>
    intro fuel curr last0 hc hf
    obtain ⟨f, rfl⟩ : ∃ f, fuel = f + 1 := ⟨fuel - 1, by simp at hf; omega⟩
    have hcurr : curr = NULL := hc
    refine ⟨NULL, last0, by simp [find_free_first, hcurr], Or.inl ⟨rfl, ?_, rfl⟩⟩
    intro a ha; cases ha
  | cons a l ih =>
    intro fuel curr last0 hc hf
    obtain ⟨f, rfl⟩ : ∃ f, fuel = f + 1 := ⟨fuel - 1, by omega⟩
    obtain ⟨e, ha, hc2⟩ := hc
    subst e
    by_cases hfit : fits mem size curr
    · refine ⟨curr, last0, ?_, Or.inr ⟨[], l, rfl, hfit, ?_, rfl⟩⟩
      · have hfit2 := hfit
        unfold fits at hfit2
        simp [find_free_first, hfit2]
      · intro x hx; cases hx
    · obtain ⟨b, last, h1, h2⟩ := ih f (mem curr).next curr hc2 (by simp at hf; omega)
      have hstep : find_free_first mem size (f + 1) curr last0 =
          find_free_first mem size f (mem curr).next curr := by
        have hfit2 := hfit
        unfold fits at hfit2
        simp only [find_free_first]
        rw [if_pos ⟨ha, hfit2⟩]
      refine ⟨b, last, by rw [hstep]; exact h1, ?_⟩
      rcases h2 with ⟨hb, hnone, hl⟩ | ⟨pre, post, hl, hfb, hpre, hlast⟩
      · refine Or.inl ⟨hb, ?_, hl⟩
        intro x hx
        rcases List.mem_cons.mp hx with rfl | hx
        · exact hfit
        · exact hnone x hx
      · refine Or.inr ⟨curr :: pre, post, by rw [hl]; rfl, hfb, ?_, hlast⟩
        intro x hx
        rcases List.mem_cons.mp hx with rfl | hx
        · exact hfit
        · exact hpre x hx

/-- Every address of a chain is non-null. -/
theorem chain_ne_null (mem : Mem) :
    ∀ (l : List Nat) (p a : Nat), Chain mem p l → a ∈ l → a ≠ NULL := by
  intro l
  induction l with
  | nil => intro p a _ h; cases h
  | cons b l ih =>
    intro p a hc h
    obtain ⟨_, hb, hc2⟩ := hc
    rcases List.mem_cons.mp h with rfl | h
    · exact hb
    · exact ih _ a hc2 h

/-- C12: under first fit (`FIT = 0`), on a list that is a finite chain `l`
and with fuel for one pass, `find_free` returns either `NULL`, when no block
of the list is free with `size ≥ s`, or the first block of the list, in list
order, that is free with `size ≥ s`; `NULL` is returned exactly when no such
block exists.  For a match `*last` is the block before it in the list (the
initial value of `*last` when the match is the head), and when nothing
matches `*last` is the tail of the list (the initial value on the empty
list). -/
theorem find_free_first_fit (s : State) (l : List Nat) (size last0 fuel : Nat)
    (hc : Chain s.mem s.FreeList l) (hfuel : l.length + 1 ≤ fuel) :
    ∃ b last, find_free 0 s fuel last0 size = some (b, last) ∧
      (b = NULL ↔ ∀ a ∈ l, ¬ fits s.mem size a) ∧
      ((b = NULL ∧ last = lastOr l last0) ∨
       (∃ pre post, l = pre ++ b :: post ∧ fits s.mem size b ∧
          (∀ a ∈ pre, ¬ fits s.mem size a) ∧ last = lastOr pre last0)) := by
  obtain ⟨b, last, h1, h2⟩ := find_free_first_spec s.mem size l fuel s.FreeList last0 hc hfuel
  refine ⟨b, last, h1, ?_, ?_⟩
  · rcases h2 with ⟨hb, hnone, _⟩ | ⟨pre, post, hl, hfb, _, _⟩
    · exact ⟨fun _ => hnone, fun _ => hb⟩
    · have hmem : b ∈ l := by rw [hl]; simp
      exact ⟨fun hb => absurd hb (chain_ne_null s.mem l _ b hc hmem),
        fun hn => absurd hfb (hn b hmem)⟩
  · rcases h2 with ⟨hb, _, hl⟩ | h
    · exact Or.inl ⟨hb, hl⟩
    · exact Or.inr h

/-- Witness for C12 on the heap left by `malloc(4); malloc(8); malloc(4);
malloc(16)` followed by `free` of the second and fourth pointer (`H = 24`):
the blocks at 4096, 4124, 4156 and 4184 have sizes 4, 8, 4 and 16 and the
second and fourth are free.  A request of 12 finds 4184 with `*last = 4156`;
a request of 20 finds nothing and leaves `*last = 4184`. -/
theorem find_free_first_fit_witness :
    Chain (stateAfter 0 24 5 4096 8192
        [.malloc 4, .malloc 8, .malloc 4, .malloc 16, .free 1, .free 3]).mem
      (stateAfter 0 24 5 4096 8192
        [.malloc 4, .malloc 8, .malloc 4, .malloc 16, .free 1, .free 3]).FreeList
      [4096, 4124, 4156, 4184] ∧
    find_free 0 (stateAfter 0 24 5 4096 8192
        [.malloc 4, .malloc 8, .malloc 4, .malloc 16, .free 1, .free 3])
      5 4096 12 = some (4184, 4156) ∧
    find_free 0 (stateAfter 0 24 5 4096 8192
        [.malloc 4, .malloc 8, .malloc 4, .malloc 16, .free 1, .free 3])
      5 4096 20 = some (NULL, 4184) ∧
    ∃ b last,
      find_free 0 (stateAfter 0 24 5 4096 8192
          [.malloc 4, .malloc 8, .malloc 4, .malloc 16, .free 1, .free 3])
        5 4096 12 = some (b, last) ∧
      (b = NULL ↔ ∀ a ∈ [4096, 4124, 4156, 4184],
        ¬ fits (stateAfter 0 24 5 4096 8192
          [.malloc 4, .malloc 8, .malloc 4, .malloc 16, .free 1, .free 3]).mem 12 a) := by
  refine ⟨by decide, by decide, by decide, ?_⟩
  obtain ⟨b, last, h1, h2, _⟩ := find_free_first_fit
    (stateAfter 0 24 5 4096 8192
      [.malloc 4, .malloc 8, .malloc 4, .malloc 16, .free 1, .free 3])
    [4096, 4124, 4156, 4184] 12 4096 5 (by decide) (by decide)
  exact ⟨b, last, h1, h2⟩

/-! ## More client programs on which the code departs from the specification -/

/-- C11 (the code departs from it): under best fit (`FIT = 1`, `H = 24`),
after a block of size 4 has been grown and released, `find_free` for a
request of `2 ^ 64 - 4` returns that block, whose size 4 is less than the
request, although no free block is large enough: the `size_t` slack wraps to
8, which is non-negative as an `int`.  And after a block of size
`2 ^ 31 + 8` has been grown and released, `find_free` for a request of 4
returns `NULL` although that block is free and large enough: its slack
`2 ^ 31 + 4` is negative as an `int`. -/
theorem best_fit_wrong_on_wrapped_slack :
    (exec 1 24 8 (start 4096 8192) [.malloc 4, .free 0]).map
      (fun r => (r.st.FreeList, r.st.mem 4096,
        find_free 1 r.st 8 r.st.FreeList (2 ^ 64 - 4),
        decide (fits r.st.mem (2 ^ 64 - 4) 4096))) =
      some (4096, ⟨4, NULL, true⟩, some (4096, 4096), false) ∧
    toInt (subSize 4 (2 ^ 64 - 4)) = 8 ∧
    (exec 1 24 8 (start 4096 (2 ^ 33)) [.malloc (2 ^ 31 + 8), .free 0]).map
      (fun r => (r.st.FreeList, r.st.mem 4096,
        find_free 1 r.st 8 r.st.FreeList 4, decide (fits r.st.mem 4 4096))) =
      some (4096, ⟨2 ^ 31 + 8, NULL, true⟩, some (NULL, 4096), true) ∧
    toInt (subSize (2 ^ 31 + 8) 4) < 0 :=
  ⟨by decide, by decide, by decide, by decide⟩

/-- C16 (the code departs from it): for every policy, with `H = 24`, after
`malloc(4); malloc(2 ^ 64 - 24)` the list is 4096, 4124 and the block at 4124
is in use with size `2 ^ 64 - 24`; for it `sbrk` was asked for
`(24 + 2 ^ 64 - 24) mod 2 ^ 64 = 0` bytes, so the break is still 4124.  The
next `malloc(4)` grows the heap at 4124 again: it returns the same payload
4148 and the block at 4124, in use before the call and not released, now has
size 4. -/
theorem in_use_block_resized_by_growth :
    ∀ FIT : Fin 3,
      addSize 24 (ALIGN4 (2 ^ 64 - 24)) = 0 ∧
      (exec FIT.val 24 8 (start 4096 8192) [.malloc 4, .malloc (2 ^ 64 - 24)]).map
        (fun r => (r.ptrs, r.st.brk, r.st.mem 4096, r.st.mem 4124,
          decide (Chain r.st.mem r.st.FreeList [4096, 4124]))) =
      some ([4120, 4148], 4124, ⟨4, 4124, false⟩, ⟨2 ^ 64 - 24, NULL, false⟩, true) ∧
      (exec FIT.val 24 8 (start 4096 8192)
          [.malloc 4, .malloc (2 ^ 64 - 24), .malloc 4]).map
        (fun r => (r.ptrs, r.st.brk, r.st.mem 4096, r.st.mem 4124,
          decide (Chain r.st.mem r.st.FreeList [4096, 4124]))) =
      some ([4120, 4148, 4148], 4152, ⟨4, 4124, false⟩, ⟨4, NULL, false⟩, true) := by
  intro FIT
  fin_cases FIT <;> exact ⟨by decide, by decide, by decide⟩

/-- C19 (the code departs from it): for every policy, with `H = 24`, after
`malloc(2 ^ 64 - 4)` on the empty heap the list is the single block 4096,
whose `size + H` is `2 ^ 64 + 20`, while `sbrk` handed out 20 bytes and
`max_heap_size + H * new_block_count` is `-4 + 24 = 20`.  And after
`malloc(2 ^ 31)` the block accounts for `2 ^ 31 + 24` bytes, which `sbrk`
did hand out, but `max_heap_size` is `-2 ^ 31`, so
`max_heap_size + H * new_block_count` is `24 - 2 ^ 31`. -/
theorem byte_count_breaks_on_large_request :
    ∀ FIT : Fin 3,
      (exec FIT.val 24 8 (start 4096 8192) [.malloc (2 ^ 64 - 4)]).map
        (fun r => (decide (Chain r.st.mem r.st.FreeList [4096]),
          listBytes 24 r.st.mem [4096], r.st.brk - 4096,
          r.st.blocks_in_list, r.st.new_block_count, r.st.max_heap_size)) =
      some (true, 2 ^ 64 + 20, 20, 1, 1, -4) ∧
      (exec FIT.val 24 8 (start 4096 (2 ^ 33)) [.malloc (2 ^ 31)]).map
        (fun r => (decide (Chain r.st.mem r.st.FreeList [4096]),
          listBytes 24 r.st.mem [4096], r.st.brk - 4096,
          r.st.blocks_in_list, r.st.new_block_count, r.st.max_heap_size)) =
      some (true, 2 ^ 31 + 24, 2 ^ 31 + 24, 1, 1, -2 ^ 31) := by
  intro FIT
  fin_cases FIT <;> exact ⟨by decide, by decide⟩

/-- C20 (the code departs from it): for every policy, with `H = 24`, after
`malloc(4); malloc(2 ^ 64 - 24); malloc(4)` the `next` links from `FreeList`
reach two blocks, 4096 and 4124, while `blocks_in_list` is 3 (it equals
`new_block_count + split_block_count - coalease_block_count = 3 + 0 - 0`):
the second and the third block were both placed at 4124. -/
theorem blocks_in_list_exceeds_reachable :
    ∀ FIT : Fin 3,
      (exec FIT.val 24 8 (start 4096 8192)
          [.malloc 4, .malloc (2 ^ 64 - 24), .malloc 4]).map
        (fun r => (decide (Chain r.st.mem r.st.FreeList [4096, 4124]),
          r.st.blocks_in_list, r.st.new_block_count, r.st.split_block_count,
          r.st.coalease_block_count)) =
      some (true, 3, 3, 0, 0) := by
  intro FIT
  fin_cases FIT <;> decide

/-! ## Splitting and growing after an overflowing request -/

/-- C7 (the code departs from it): with `H = 24`.  Under best fit and worst
fit (the policies `FIT = k + 1`), after `p = malloc(40); free(p)` the locator
returns for `malloc(2 ^ 64 - 4)` the free block 4096 of size 40, so
`b.size - r` is negative and not more than `H`; the test
`next->size - size > sizeof(struct block)` is taken in `size_t`, where the
difference wraps to 44, and the block is split: its size becomes
`2 ^ 64 - 4`, a free remainder of size 20 is written at the wrapped address
4116 (past the fields of the header 4096, which end at byte 4112) and
`split_block_count` and `blocks_in_list` grow by one.  Under first
fit, after `malloc(4); q = malloc(2 ^ 64 - 4); free(q)` the locator returns
for `malloc(2 ^ 64 - 52)` the free block 4124 with `b.size - r = 48 > H`; the
address of the remainder, `4124 + 24 + (2 ^ 64 - 52)`, wraps to 4096, so the
remainder is written over the header of the block 4096: that block, in use
with size 4 before the call, is free with size 24 after it, and the list from
`FreeList` is the single block 4096, without the returned block 4124. -/
theorem split_departs_from_postcondition :
    (∀ k : Fin 2,
      (exec (k.val + 1) 24 8 (start 4096 8192) [.malloc 40, .free 0]).map
        (fun r => (r.st.mem 4096,
          find_free (k.val + 1) r.st 8 r.st.FreeList (ALIGN4 (2 ^ 64 - 4)),
          r.st.split_block_count, r.st.blocks_in_list)) =
      some (⟨40, NULL, true⟩, some (4096, 4096), 0, 1) ∧
      ALIGN4 (2 ^ 64 - 4) = 2 ^ 64 - 4 ∧ subSize 40 (2 ^ 64 - 4) = 44 ∧
      (exec (k.val + 1) 24 8 (start 4096 8192)
          [.malloc 40, .free 0, .malloc (2 ^ 64 - 4)]).map
        (fun r => (r.ptrs, r.st.mem 4096, r.st.mem 4116,
          r.st.split_block_count, r.st.blocks_in_list)) =
      some ([4120, 4120], ⟨2 ^ 64 - 4, 4116, false⟩, ⟨20, NULL, true⟩, 1, 2)) ∧
    (exec 0 24 8 (start 4096 8192) [.malloc 4, .malloc (2 ^ 64 - 4), .free 1]).map
      (fun r => (r.st.mem 4096, r.st.mem 4124,
        decide (Chain r.st.mem r.st.FreeList [4096, 4124]),
        find_free 0 r.st 8 r.st.FreeList (ALIGN4 (2 ^ 64 - 52)))) =
      some (⟨4, 4124, false⟩, ⟨2 ^ 64 - 4, NULL, true⟩, true, some (4124, 4096)) ∧
    ALIGN4 (2 ^ 64 - 52) = 2 ^ 64 - 52 ∧
    (4124 + 24 + (2 ^ 64 - 52)) % SIZE_MOD = 4096 ∧
    (exec 0 24 8 (start 4096 8192)
        [.malloc 4, .malloc (2 ^ 64 - 4), .free 1, .malloc (2 ^ 64 - 52)]).map
      (fun r => (r.ptrs, r.st.mem 4096, r.st.mem 4124,
        decide (Chain r.st.mem r.st.FreeList [4096]),
        r.st.split_block_count, r.st.blocks_in_list)) =
      some ([4120, 4148, 4148], ⟨24, NULL, true⟩, ⟨2 ^ 64 - 52, 4096, false⟩, true, 1, 3) := by
  refine ⟨?_, by decide, by decide, by decide, by decide⟩
  intro k
  fin_cases k <;> exact ⟨by decide, by decide, by decide, by decide⟩

/-- C13 (the code departs from it): for every policy, with `H = 24`, after
`malloc(8); malloc(2 ^ 64 - 24)` the list is 4096, 4128, both blocks in use,
and the break is still 4128, the address of the tail block, because for the
second block `sbrk` was asked for `(24 + 2 ^ 64 - 24) mod 2 ^ 64 = 0` bytes.
The next call `malloc(16)` finds no free block and grows the heap (both
`sbrk` calls succeed, `new_block_count` and `blocks_in_list` go from 2 to 3),
yet the list after the call is still 4096, 4128: no block was appended, and
the existing block 4128 has size 16 instead of `2 ^ 64 - 24`. -/
theorem growth_rewrites_tail_block :
    ∀ FIT : Fin 3,
      (exec FIT.val 24 8 (start 4096 8192) [.malloc 8, .malloc (2 ^ 64 - 24)]).map
        (fun r => (r.ptrs, r.st.brk, r.st.mem 4096, r.st.mem 4128,
          decide (Chain r.st.mem r.st.FreeList [4096, 4128]))) =
      some ([4120, 4152], 4128, ⟨8, 4128, false⟩, ⟨2 ^ 64 - 24, NULL, false⟩, true) ∧
      (exec FIT.val 24 8 (start 4096 8192) [.malloc 8, .malloc (2 ^ 64 - 24)]).map
        (fun r => (find_free FIT.val r.st 8 r.st.FreeList (ALIGN4 16),
          r.st.new_block_count, r.st.blocks_in_list)) =
      some (some (NULL, 4128), 2, 2) ∧
      (exec FIT.val 24 8 (start 4096 8192)
          [.malloc 8, .malloc (2 ^ 64 - 24), .malloc 16]).map
        (fun r => (r.ptrs, r.st.brk, r.st.mem 4096, r.st.mem 4128,
          decide (Chain r.st.mem r.st.FreeList [4096, 4128]))) =
      some ([4120, 4152, 4152], 4168, ⟨8, 4128, false⟩, ⟨16, NULL, false⟩, true) ∧
      (exec FIT.val 24 8 (start 4096 8192)
          [.malloc 8, .malloc (2 ^ 64 - 24), .malloc 16]).map
        (fun r => (r.st.new_block_count, r.st.blocks_in_list)) =
      some (3, 3) := by
  intro FIT
  fin_cases FIT <;> exact ⟨by decide, by decide, by decide, by decide⟩

/-- C18 (the code departs from it): under first fit and best fit (the
policies `FIT = k`), with `H = 24`, after
`p0 = malloc(4); malloc(4); p2 = malloc(2 ^ 64 - 4); free(p0); free(p2)` the
list is 4096 (free), 4124 (in use), 4152 (free, size `2 ^ 64 - 4`): no two
list-adjacent blocks are both free.  The call `malloc(2 ^ 64 - 52)` returns
the payload 4176 of the block 4152 and splits it; the address of the free
remainder, `4152 + 24 + (2 ^ 64 - 52)`, wraps to 4124, the header of the
in-use block.  After the call the list is 4096 (free), 4124 (free): two
list-adjacent blocks are both free. -/
theorem malloc_split_makes_adjacent_free :
    ∀ k : Fin 2,
      (exec k.val 24 8 (start 4096 8192)
          [.malloc 4, .malloc 4, .malloc (2 ^ 64 - 4), .free 0, .free 2]).map
        (fun r => (decide (Chain r.st.mem r.st.FreeList [4096, 4124, 4152]),
          decide (NoAdjFree r.st.mem [4096, 4124, 4152]),
          r.st.mem 4096, r.st.mem 4124, r.st.mem 4152)) =
      some (true, true, ⟨4, 4124, true⟩, ⟨4, 4152, false⟩, ⟨2 ^ 64 - 4, NULL, true⟩) ∧
      (4152 + 24 + ALIGN4 (2 ^ 64 - 52)) % SIZE_MOD = 4124 ∧
      (exec k.val 24 8 (start 4096 8192)
          [.malloc 4, .malloc 4, .malloc (2 ^ 64 - 4), .free 0, .free 2,
           .malloc (2 ^ 64 - 52)]).map
        (fun r => (r.ptrs, decide (Chain r.st.mem r.st.FreeList [4096, 4124]),
          decide (NoAdjFree r.st.mem [4096, 4124]),
          r.st.mem 4096, r.st.mem 4124, r.st.mem 4152)) =
      some ([4120, 4148, 4176, 4176], true, false,
        ⟨4, 4124, true⟩, ⟨24, NULL, true⟩, ⟨2 ^ 64 - 52, 4124, false⟩) := by
  intro k
  fin_cases k <;> exact ⟨by decide, by decide, by decide⟩

end HeapManagement
